import Mathlib

/-
Verification of the request router / training orchestrator of the rasa fork,
against its natural-language specification.

The embedding is a shallow one: the Python module `rasa_nlu/data_router.py`
(class `DataRouter`) is translated into pure Lean functions that thread the
router state explicitly; exceptions become `Except` results paired with the
state after the call (Python side effects performed before a `raise` survive
the exception, so the state is returned on the error path as well).
The two Watson collaborators, `rasa/nlu/emulators/watson.py` and
`rasa/nlu/training_data/formats/watson.py`, are pure and are translated into
pure functions on structured values mirroring the JSON dictionaries they
consume and produce.
-/

set_option autoImplicit false

namespace Rasa

/-- Modelled from the spec: the `Agent` class lives in `rasa_nlu/agent.py`,
which is not part of the analysed sources; `data_router.py` uses only its
training-status flag (read as `status == 1` and written as `status = 1` in
`start_train_process`).  The spec describes the registry entry as a model
handle with "a training-status flag with values idle, training" that starts
idle.  We model the flag as a `Nat` (0 = idle, 1 = training, the two values
the router uses) and keep the constructor argument `agentName` so that
`Agent(config, component_builder, agent)` and the bare placeholder `Agent()`
are distinguishable values. -/
structure Agent where
  agentName : String
  status : Nat
deriving Repr, DecidableEq

/-- `Agent(config, component_builder, name)`: the handle freshly constructed
for `name`; its training flag starts idle (0). -/
def Agent.make (name : String) : Agent := ⟨name, 0⟩

/-- `Agent()`: the bare placeholder handle created for the default entry. -/
def Agent.empty : Agent := ⟨"", 0⟩

/-- One entry of `DataRouter._train_procs`: a `multiprocessing.Process`
spawned by `start_train_process`, identified by its pid (`p.ident`), carrying
the target agent name of the `train_config` it was started with, and an
`is_alive()` liveness bit (flipped by the environment when the OS process
terminates). -/
structure TrainProc where
  ident : Nat
  targetName : String
  alive : Bool
deriving Repr, DecidableEq

/-- Request-scoped error kinds raised by `DataRouter`:
`InvalidModelError` (from `rasa_nlu/model.py`, carrying a message that may
wrap an underlying cause) and `AlreadyTrainingError` (defined at the top of
`data_router.py`). -/
inductive RouterError where
  | invalidModel (msg : String)
  | alreadyTraining
deriving Repr, DecidableEq

/-- Python `dict` lookup on an insertion-ordered association list
(`agent_store` and the synonym dictionary are Python dicts; keys are unique
by construction, so first match is the match). -/
def dictFind {α : Type} : List (String × α) → String → Option α
  | [], _ => none
  | (k, v) :: rest, key => if k = key then some v else dictFind rest key

/-- Python `d[key] = v` on an insertion-ordered association list: overwrite
in place when the key is present, append otherwise. -/
def dictInsert {α : Type} : List (String × α) → String → α → List (String × α)
  | [], key, v => [(key, v)]
  | (k, w) :: rest, key, v =>
      if k = key then (k, v) :: rest else (k, w) :: dictInsert rest key v

/-- The in-place mutation `self.agent_store[agent].status = s` of the agent
object stored under `agent` (lines 185-188 of `data_router.py`). -/
def storeSetStatus : List (String × Agent) → String → Nat → List (String × Agent)
  | [], _, _ => []
  | (k, v) :: rest, key, s =>
      if k = key then (k, { v with status := s }) :: storeSetStatus rest key s
      else (k, v) :: storeSetStatus rest key s

/-- The mutable state of a `DataRouter` instance, together with the two
configuration items the analysed code reads: `baseName` is the `"name"` entry
of the base configuration (consulted by `_config.get("name")` after the
override merge in `start_train_process`), and `nextPid` supplies the pid of
the next spawned training process. `tempFiles` records, in order, the
training payloads persisted by `tempfile.NamedTemporaryFile` in
`start_train_process`. -/
structure DataRouter where
  agent_store : List (String × Agent)
  train_procs : List TrainProc
  tempFiles : List String
  baseName : Option String
  nextPid : Nat
deriving Repr, DecidableEq

namespace DataRouter

/-- `DataRouter.DEFAULT_AGENT_NAME`. -/
def DEFAULT_AGENT_NAME : String := "default"

/-- `DataRouter._create_agent_store` (lines 99-112): list the configured
model directory (`none` models `os.path.isdir` returning false, i.e. the
directory is absent), create one `Agent` per listed name, and fall back to a
single default placeholder when the store would otherwise be empty. -/
def _create_agent_store (disk : Option (List String)) : List (String × Agent) :=
  let agents : List String := match disk with
    | none => []
    | some l => l
  let store := agents.foldl (fun st a => dictInsert st a (Agent.make a)) []
  if store.isEmpty then [(DEFAULT_AGENT_NAME, Agent.empty)] else store

/-- `DataRouter._remove_finished_procs` (lines 79-81): drop the processes
whose `is_alive()` is false from `_train_procs`. Note that it touches only
the process list; no agent entry is modified. -/
def _remove_finished_procs (r : DataRouter) : DataRouter :=
  { r with train_procs := r.train_procs.filter (fun p => p.alive) }

/-- The `train_procs` property (lines 87-93): reap finished processes, then
return the (updated) list, paired here with the updated router state. -/
def train_procsProp (r : DataRouter) : DataRouter × List TrainProc :=
  let r' := _remove_finished_procs r
  (r', r'.train_procs)

/-- Environment action: the OS process with pid `pid` terminates (success or
failure), so its `is_alive()` becomes false. This is not router code; it
models the external transition the spec calls job termination. -/
def terminateProc (r : DataRouter) (pid : Nat) : DataRouter :=
  { r with train_procs :=
      r.train_procs.map (fun p => if p.ident = pid then { p with alive := false } else p) }

/-- Python truthiness fallback `data.get("agent") or DEFAULT_AGENT_NAME`
for an optional string: an absent key and an explicit `None` both give
`none`, and the empty string is the only falsy string. -/
def pyStrOr (a : Option String) (d : String) : String :=
  match a with
  | none => d
  | some s => if s = "" then d else s

/-- The body of a `/parse` request as `DataRouter.parse` reads it:
`data.get("agent")`, `data.get("model")`, `data['text']`,
`data.get('time', None)`. -/
structure ParseRequest where
  agent : Option String
  model : Option String
  text : String
  time : Option Int
deriving Repr, DecidableEq

/-- The dispatch performed by line 148 of `data_router.py`:
`self.agent_store[agent].parse(data['text'], data.get('time', None), model)`.
We record the handle the call is dispatched to and the arguments passed;
the inference computation itself lives in `rasa_nlu/agent.py`, outside the
analysed sources. -/
structure ParseDispatch where
  handle : Agent
  text : String
  time : Option Int
  model : Option String
deriving Repr, DecidableEq

/-- `DataRouter.parse` (lines 134-153), up to the dispatch into the resolved
agent handle. `disk` is the result of `os.listdir(self.config['path'])` at
call time; `construct` models the constructor call
`Agent(self.config, self.component_builder, agent)`, which may raise (the
`except Exception` branch wraps its message). The router state is returned
on every path because side effects performed before a `raise` survive the
exception. -/
def parse (r : DataRouter) (disk : List String)
    (construct : String → Except String Agent) (data : ParseRequest) :
    DataRouter × Except RouterError ParseDispatch :=
  let agent := pyStrOr data.agent DEFAULT_AGENT_NAME
  match dictFind r.agent_store agent with
  | some a => (r, .ok ⟨a, data.text, data.time, data.model⟩)
  | none =>
      if agent ∈ disk then
        match construct agent with
        | .ok a =>
            let r' := { r with agent_store := dictInsert r.agent_store agent a }
            (r', .ok ⟨a, data.text, data.time, data.model⟩)
        | .error e =>
            (r, .error (.invalidModel
              ("No agent found with name " ++ agent ++ ". Error: " ++ e)))
      else
        (r, .error (.invalidModel ("No agent found with name " ++ agent ++ ".")))

/-- `DataRouter.start_train_process` (lines 169-193), with the statements in
source order: (1) persist the training payload `data` to a fresh temp file,
(2) merge `config_values` onto the base configuration (override wins, so the
effective `"name"` is the override's when supplied, the base one otherwise),
(3) fail with `InvalidModelError` when the merged name is falsy (absent or
empty), (4) when the name is a key of `agent_store`, fail with
`AlreadyTrainingError` if its status flag is 1 and set the flag otherwise (a
name absent from the store skips this block entirely), (5) spawn and record
the training process.  Only the `"name"` entry of `config_values` is
consulted by the analysed code, so only it appears here.  The router state is
returned on every path because side effects performed before a `raise`
survive the exception. -/
def start_train_process (r : DataRouter) (data : String) (cfgName : Option String) :
    DataRouter × Except RouterError TrainProc :=
  let r₁ := { r with tempFiles := r.tempFiles ++ [data] }
  let merged : Option String := match cfgName with
    | some v => some v
    | none => r.baseName
  match merged with
  | none => (r₁, .error (.invalidModel "No agent found with name None"))
  | some agent =>
      if agent = "" then
        (r₁, .error (.invalidModel "No agent found with name "))
      else
        match dictFind r₁.agent_store agent with
        | some a =>
            if a.status = 1 then
              (r₁, .error .alreadyTraining)
            else
              let r₂ := { r₁ with agent_store := storeSetStatus r₁.agent_store agent 1 }
              let p : TrainProc := ⟨r₂.nextPid, agent, true⟩
              ({ r₂ with train_procs := r₂.train_procs ++ [p], nextPid := r₂.nextPid + 1 },
               .ok p)
        | none =>
            let p : TrainProc := ⟨r₁.nextPid, agent, true⟩
            ({ r₁ with train_procs := r₁.train_procs ++ [p], nextPid := r₁.nextPid + 1 },
             .ok p)

/-- `n` sequential `start_train_process` calls with the same payload and the
same `"name"` override, each one running after the previous one has
returned; the per-call results are listed in order. -/
def runTrainsSeq (r : DataRouter) (data : String) (name : String) :
    Nat → DataRouter × List (Except RouterError TrainProc)
  | 0 => (r, [])
  | n + 1 =>
      let step := start_train_process r data (some name)
      let rest := runTrainsSeq step.1 data name n
      (rest.1, step.2 :: rest.2)

end DataRouter

/-! ### Interleaving model of the training-acceptance critical section

Lines 184-188 of `data_router.py` are the check-then-act on the target
agent's status flag:
`if self.agent_store[agent].status == 1: raise AlreadyTrainingError`
`else: self.agent_store[agent].status = 1`.
When two request-handler workers execute `start_train_process` for the same
registered name concurrently, each performs the read of the flag and the
write of the flag as two separate atomic memory operations; the scheduler
may interleave them arbitrarily.  `RaceState` models the shared flag and the
progress of two such requests, and `raceStep` is one atomic step of the
chosen request. -/

/-- Progress of one training request through the critical section of
`start_train_process`: it has not yet read the flag, has read it as 0 and is
about to write, or has finished accepted (spawned a job) or rejected
(raised `AlreadyTrainingError`). -/
inductive ReqPhase where
  | ready
  | checked
  | accepted
  | rejected
deriving Repr, DecidableEq

/-- Shared status flag of the target agent and the phases of two concurrent
`start_train_process` requests for that same registered name. -/
structure RaceState where
  status : Nat
  pc1 : ReqPhase
  pc2 : ReqPhase
deriving Repr, DecidableEq

/-- One atomic step of the request at phase `pc` against the shared flag:
the read-and-branch of line 185 (from `ready`), or the write of line 188
followed by acceptance (from `checked`). Finished requests do not move. -/
def reqStep (status : Nat) (pc : ReqPhase) : Nat × ReqPhase :=
  match pc with
  | .ready => if status = 1 then (status, .rejected) else (status, .checked)
  | .checked => (1, .accepted)
  | .accepted => (status, .accepted)
  | .rejected => (status, .rejected)

/-- Scheduler step: `false` lets request 1 take its next atomic step,
`true` lets request 2. -/
def raceStep (s : RaceState) (which : Bool) : RaceState :=
  if which then
    let st := reqStep s.status s.pc2
    { s with status := st.1, pc2 := st.2 }
  else
    let st := reqStep s.status s.pc1
    { s with status := st.1, pc1 := st.2 }

/-- Run a schedule (a list of scheduler choices) from a state. -/
def runSchedule (s : RaceState) (sched : List Bool) : RaceState :=
  sched.foldl raceStep s

/-! ### The Watson protocol-translation collaborator
(`rasa/nlu/emulators/watson.py`) -/

namespace WatsonEmulator

/-- One element of the internal result's `intent_ranking` list:
a dictionary with keys `name` and `confidence`. Confidences are rational
numbers here; the analysed code only copies them, never computes with them.
-/
structure IntentRank where
  name : String
  confidence : ℚ
deriving Repr, DecidableEq

/-- One element of the internal result's `entities` list. The code accesses
`entity`, `value` and `start`, `end`, `confidence`; the first two by `[...]`
(required), the last three tolerating absence (`e.get("start")`,
`"end" in e`, `e.get("confidence")`), so those are optional here. `endPos`
stands for the key `end` (a Lean keyword); it is the half-open end offset. -/
structure EntityIn where
  entity : String
  value : String
  start : Option Int
  endPos : Option Int
  confidence : Option ℚ
deriving Repr, DecidableEq

/-- The internal result handed to `normalise_response_json`: keys
`intent_ranking`, `entities`, `text`. -/
structure InternalResult where
  intent_ranking : List IntentRank
  entities : List EntityIn
  text : String
deriving Repr, DecidableEq

/-- One element of the produced `intents` list:
`{"intent": el["name"], "confidence": el["confidence"]}`. -/
structure WatsonIntentOut where
  intent : String
  confidence : ℚ
deriving Repr, DecidableEq

/-- One element of the produced `entities` list; `location` is the
two-element list `[e.get("start"), e["end"] - 1 if "end" in e else None]`. -/
structure WatsonEntityOut where
  entity : String
  location : List (Option Int)
  value : String
  confidence : Option ℚ
deriving Repr, DecidableEq

/-- The full response dictionary produced by `normalise_response_json`;
`input_text` stands for the nested `input.text` field. -/
structure WatsonResponse where
  intents : List WatsonIntentOut
  entities : List WatsonEntityOut
  input_text : String
deriving Repr, DecidableEq

/-- `WatsonEmulator.normalise_response_json` (lines 20-42 of
`rasa/nlu/emulators/watson.py`): bucket the internal result into the Watson
`intents` / `entities` / `input.text` shape, converting each half-open end
offset into an inclusive one by subtracting 1. -/
def normalise_response_json (d : InternalResult) : WatsonResponse :=
  { intents := d.intent_ranking.map (fun el => ⟨el.name, el.confidence⟩),
    entities := d.entities.map (fun e =>
      ⟨e.entity,
       [e.start, match e.endPos with | some n => some (n - 1) | none => none],
       e.value, e.confidence⟩),
    input_text := d.text }

end WatsonEmulator

/-! ### The Watson training-data reader
(`rasa/nlu/training_data/formats/watson.py`) -/

namespace WatsonReader

/-- One element of an intent's `examples` list (key `text`). -/
structure ExampleJs where
  text : String
deriving Repr, DecidableEq

/-- One element of the corpus `intents` list (keys `intent`, `examples`). -/
structure IntentJs where
  intent : String
  examples : List ExampleJs
deriving Repr, DecidableEq

/-- One element of an entity's `values` list (keys `value`, `type`,
`synonyms`, `patterns`); `vtype` stands for the key `type`. -/
structure ValueJs where
  value : String
  vtype : String
  synonyms : List String
  patterns : List String
deriving Repr, DecidableEq

/-- One element of the corpus `entities` list (keys `entity`, `values`). -/
structure EntityJs where
  entity : String
  values : List ValueJs
deriving Repr, DecidableEq

/-- A Watson Assistant corpus as `read_from_json` reads it
(keys `intents`, `entities`). -/
structure WatsonJs where
  intents : List IntentJs
  entities : List EntityJs
deriving Repr, DecidableEq

/-- A labeled training example: `Message(text, {"intent": intentName})`. -/
structure Message where
  text : String
  intent : String
deriving Repr, DecidableEq

/-- One regex feature `{"name": ..., "pattern": ...}`. -/
structure RegexFeature where
  name : String
  pattern : String
deriving Repr, DecidableEq

/-- The `TrainingData(training_examples, entity_synonyms, regex_features)`
value returned by `read_from_json`; the synonym dictionary is kept as its
insertion-ordered association list. -/
structure TrainingData where
  training_examples : List Message
  entity_synonyms : List (String × String)
  regex_features : List RegexFeature
deriving Repr, DecidableEq

/-- The body of the inner loop of `WatsonReader._extract_entities` for one
element `v` of `entity.values` under entity name `en`: when `v` is
`synonyms`-typed, write `v.value` and each of its synonyms into the synonym
dictionary with value `en`; when `patterns`-typed, append one regex feature
named `en ++ "_" ++ v.value` per pattern. -/
def procValue (en : String) (acc : List (String × String) × List RegexFeature)
    (v : ValueJs) : List (String × String) × List RegexFeature :=
  let acc₁ :=
    if v.vtype = "synonyms" then
      (v.synonyms.foldl (fun d s => dictInsert d s en) (dictInsert acc.1 v.value en),
       acc.2)
    else acc
  if v.vtype = "patterns" then
    (acc₁.1, acc₁.2 ++ v.patterns.map (fun p => ⟨en ++ "_" ++ v.value, p⟩))
  else acc₁

/-- `WatsonReader._extract_entities` (lines 31-48): the two nested loops over
`js.entities` and their `values`, threading the synonym dictionary and the
regex-feature list. -/
def _extract_entities (js : WatsonJs) : List (String × String) × List RegexFeature :=
  js.entities.foldl (fun acc e => e.values.foldl (procValue e.entity) acc) ([], [])

/-- `WatsonReader._extract_intents` (lines 50-62): one `Message` per example
text of each intent, in corpus order. -/
def _extract_intents (js : WatsonJs) : List Message :=
  js.intents.foldl
    (fun acc i => acc ++ i.examples.map (fun ex => ⟨ex.text, i.intent⟩)) []

/-- `WatsonReader.read_from_json` (lines 17-29): extract entities and
intents and assemble the `TrainingData`. -/
def read_from_json (js : WatsonJs) : TrainingData :=
  let ent := _extract_entities js
  ⟨_extract_intents js, ent.1, ent.2⟩

/-- The synonym-dictionary write events of a corpus, in the order
`_extract_entities` performs them: for each `synonyms`-typed value, the pair
(value text, entity name) followed by one pair per listed synonym. -/
def synonymEvents (js : WatsonJs) : List (String × String) :=
  js.entities.flatMap (fun e =>
    e.values.flatMap (fun v =>
      if v.vtype = "synonyms" then
        (v.value, e.entity) :: v.synonyms.map (fun s => (s, e.entity))
      else []))

/-- The regex features of a corpus as a flat map: one per pattern of each
`patterns`-typed value, named entity name, underscore, value text. -/
def regexOf (js : WatsonJs) : List RegexFeature :=
  js.entities.flatMap (fun e =>
    e.values.flatMap (fun v =>
      if v.vtype = "patterns" then
        v.patterns.map (fun p => ⟨e.entity ++ "_" ++ v.value, p⟩)
      else []))

/-- The (intent name, example text) occurrences of a corpus, in order. -/
def intentPairs (js : WatsonJs) : List (String × String) :=
  js.intents.flatMap (fun i => i.examples.map (fun ex => (i.intent, ex.text)))

end WatsonReader

/-! ### Association-list lemmas -/

theorem dictFind_insert_self {α : Type} (d : List (String × α)) (k : String) (v : α) :
    dictFind (dictInsert d k v) k = some v := by
  induction d with
  | nil => simp [dictInsert, dictFind]
  | cons hd tl ih =>
      obtain ⟨k₁, v₁⟩ := hd
      by_cases h : k₁ = k
      · subst h
        simp [dictInsert, dictFind]
      · simp [dictInsert, dictFind, h, ih]

theorem dictFind_insert_ne {α : Type} (d : List (String × α)) (k key : String) (v : α)
    (h : k ≠ key) : dictFind (dictInsert d key v) k = dictFind d k := by
  induction d with
  | nil => simp [dictInsert, dictFind, Ne.symm h]
  | cons hd tl ih =>
      obtain ⟨k₁, v₁⟩ := hd
      by_cases h₁ : k₁ = key
      · subst h₁
        simp [dictInsert, dictFind, Ne.symm h]
      · by_cases h₂ : k₁ = k
        · simp [dictInsert, dictFind, h₁, h₂, h]
        · simp [dictInsert, dictFind, h₁, h₂, ih]

theorem dictInsert_of_find_none {α : Type} (d : List (String × α)) (k : String) (v : α)
    (h : dictFind d k = none) : dictInsert d k v = d ++ [(k, v)] := by
  induction d with
  | nil => simp [dictInsert]
  | cons hd tl ih =>
      obtain ⟨k₁, v₁⟩ := hd
      by_cases h₁ : k₁ = k
      · subst h₁
        simp [dictFind] at h
      · simp [dictFind, h₁] at h
        simp [dictInsert, h₁, ih h]

theorem dictFind_append_right {α : Type} (d₁ d₂ : List (String × α)) (k : String)
    (h : dictFind d₁ k = none) : dictFind (d₁ ++ d₂) k = dictFind d₂ k := by
  induction d₁ with
  | nil => simp
  | cons hd tl ih =>
      obtain ⟨k₁, v₁⟩ := hd
      by_cases h₁ : k₁ = k
      · subst h₁
        simp [dictFind] at h
      · simp [dictFind, h₁] at h ⊢
        exact ih h

/-! ### Claims C5, C7, C10: the `/parse` path -/

/-- C5. For a parse request whose resolved agent name is a key of neither
the in-memory registry nor the durable-storage listing, `parse` fails with
`InvalidModelError` and leaves the router state (in particular the agent
registry) unchanged; and when the name is on storage but lazily constructing
the agent fails, `parse` fails with an `InvalidModelError` wrapping the
cause, again leaving the state unchanged with no partial registry entry. -/
theorem parse_unknown_agent_invalid_model
    (r : DataRouter) (disk : List String) (construct : String → Except String Agent)
    (data : DataRouter.ParseRequest) (agent : String)
    (hagent : DataRouter.pyStrOr data.agent DataRouter.DEFAULT_AGENT_NAME = agent)
    (hfind : dictFind r.agent_store agent = none) :
    (agent ∉ disk →
      DataRouter.parse r disk construct data =
        (r, .error (.invalidModel ("No agent found with name " ++ agent ++ ".")))) ∧
    (∀ e, agent ∈ disk → construct agent = .error e →
      DataRouter.parse r disk construct data =
        (r, .error (.invalidModel
          ("No agent found with name " ++ agent ++ ". Error: " ++ e)))) := by
  constructor
  · intro hmem
    simp [DataRouter.parse, hagent, hfind, hmem]
  · intro e hmem hc
    simp [DataRouter.parse, hagent, hfind, hmem, hc]

/-- C5 witness: a concrete unknown agent name, once with an empty storage
listing and once with a failing constructor. -/
theorem parse_unknown_agent_invalid_model_witness :
    DataRouter.parse ⟨[("default", Agent.empty)], [], [], none, 0⟩ []
        (fun _ => .error "boom") ⟨some "ghost", none, "hi", none⟩ =
      (⟨[("default", Agent.empty)], [], [], none, 0⟩,
       .error (.invalidModel "No agent found with name ghost.")) ∧
    DataRouter.parse ⟨[("default", Agent.empty)], [], [], none, 0⟩ ["ghost"]
        (fun _ => .error "boom") ⟨some "ghost", none, "hi", none⟩ =
      (⟨[("default", Agent.empty)], [], [], none, 0⟩,
       .error (.invalidModel "No agent found with name ghost. Error: boom")) := by
  constructor
  · exact (parse_unknown_agent_invalid_model ⟨[("default", Agent.empty)], [], [], none, 0⟩
      [] (fun _ => .error "boom") ⟨some "ghost", none, "hi", none⟩ "ghost" rfl rfl).1
      (by decide)
  · exact (parse_unknown_agent_invalid_model ⟨[("default", Agent.empty)], [], [], none, 0⟩
      ["ghost"] (fun _ => .error "boom") ⟨some "ghost", none, "hi", none⟩ "ghost" rfl rfl).2
      "boom" (by decide) rfl

/-- C7. Resolution is idempotent: when the resolved agent name is already a
key of the registry, `parse` dispatches to exactly the stored handle, leaves
the router state unchanged, and does not consult the agent constructor at
all (its result is independent of the constructor function), so repeated
calls keep dispatching to the same stored handle. -/
theorem parse_idempotent_resolution
    (r : DataRouter) (disk : List String)
    (construct₁ construct₂ : String → Except String Agent)
    (data : DataRouter.ParseRequest) (agent : String) (a : Agent)
    (hagent : DataRouter.pyStrOr data.agent DataRouter.DEFAULT_AGENT_NAME = agent)
    (hfind : dictFind r.agent_store agent = some a) :
    DataRouter.parse r disk construct₁ data =
      (r, .ok ⟨a, data.text, data.time, data.model⟩) ∧
    DataRouter.parse r disk construct₁ data =
      DataRouter.parse r disk construct₂ data := by
  constructor
  · simp [DataRouter.parse, hagent, hfind]
  · simp [DataRouter.parse, hagent, hfind]

/-- C7 witness: repeated parses of a loaded name return the stored handle
and are independent of the constructor. -/
theorem parse_idempotent_resolution_witness :
    DataRouter.parse ⟨[("x", Agent.make "x")], [], [], none, 0⟩ []
        (fun _ => .error "boom") ⟨some "x", none, "hi", none⟩ =
      (⟨[("x", Agent.make "x")], [], [], none, 0⟩,
       .ok ⟨Agent.make "x", "hi", none, none⟩) ∧
    DataRouter.parse ⟨[("x", Agent.make "x")], [], [], none, 0⟩ []
        (fun _ => .error "boom") ⟨some "x", none, "hi", none⟩ =
      DataRouter.parse ⟨[("x", Agent.make "x")], [], [], none, 0⟩ []
        (fun n => .ok (Agent.make n)) ⟨some "x", none, "hi", none⟩ :=
  parse_idempotent_resolution _ _ _ _ _ "x" (Agent.make "x") rfl rfl

/-- C10. A falsy `agent` field of a parse request — absent (or explicit
`None`, both of which `data.get("agent")` turns into `none`) or the empty
string — is routed exactly as an explicit request for the default agent
`"default"`. -/
theorem parse_falsy_agent_defaults
    (r : DataRouter) (disk : List String) (construct : String → Except String Agent)
    (data : DataRouter.ParseRequest)
    (h : data.agent = none ∨ data.agent = some "") :
    DataRouter.parse r disk construct data =
      DataRouter.parse r disk construct
        { data with agent := some DataRouter.DEFAULT_AGENT_NAME } := by
  rcases h with h | h <;>
    simp [DataRouter.parse, DataRouter.pyStrOr, h, DataRouter.DEFAULT_AGENT_NAME]

/-- C10 witness: the absent and empty-string agent fields both route as the
explicit default name on a concrete router. -/
theorem parse_falsy_agent_defaults_witness :
    DataRouter.parse ⟨[("default", Agent.empty)], [], [], none, 0⟩ []
        (fun n => .ok (Agent.make n)) ⟨none, none, "hi", none⟩ =
      DataRouter.parse ⟨[("default", Agent.empty)], [], [], none, 0⟩ []
        (fun n => .ok (Agent.make n)) ⟨some "default", none, "hi", none⟩ ∧
    DataRouter.parse ⟨[("default", Agent.empty)], [], [], none, 0⟩ []
        (fun n => .ok (Agent.make n)) ⟨some "", none, "hi", none⟩ =
      DataRouter.parse ⟨[("default", Agent.empty)], [], [], none, 0⟩ []
        (fun n => .ok (Agent.make n)) ⟨some "default", none, "hi", none⟩ :=
  ⟨parse_falsy_agent_defaults _ _ _ _ (Or.inl rfl),
   parse_falsy_agent_defaults _ _ _ _ (Or.inr rfl)⟩

/-! ### Claim C6: the initial agent store -/

theorem foldl_make_fresh (names : List String) (init : List (String × Agent))
    (hfresh : ∀ n ∈ names, dictFind init n = none) (hnd : names.Nodup) :
    names.foldl (fun st a => dictInsert st a (Agent.make a)) init =
      init ++ names.map (fun n => (n, Agent.make n)) := by
  induction names generalizing init with
  | nil => simp
  | cons hd tl ih =>
      obtain ⟨hhd, htl⟩ := List.nodup_cons.mp hnd
      have hfh : dictFind init hd = none := hfresh hd (by simp)
      rw [List.foldl_cons, dictInsert_of_find_none _ _ _ hfh]
      rw [ih (init ++ [(hd, Agent.make hd)]) ?_ htl]
      · simp
      · intro n hn
        rw [dictFind_append_right _ _ _ (hfresh n (by simp [hn]))]
        have : hd ≠ n := fun h => hhd (h ▸ hn)
        simp [dictFind, this]

/-- C6. At router construction, `_create_agent_store` yields exactly one
registry entry per name listed in the configured model directory, and when
the directory is absent (`none`) or lists no names, exactly the single
placeholder entry named `"default"`. -/
theorem create_agent_store_spec :
    DataRouter._create_agent_store none = [(DataRouter.DEFAULT_AGENT_NAME, Agent.empty)] ∧
    DataRouter._create_agent_store (some []) =
      [(DataRouter.DEFAULT_AGENT_NAME, Agent.empty)] ∧
    ∀ names : List String, names.Nodup → names ≠ [] →
      DataRouter._create_agent_store (some names) =
        names.map (fun n => (n, Agent.make n)) := by
  refine ⟨rfl, rfl, ?_⟩
  intro names hnd hne
  simp only [DataRouter._create_agent_store]
  rw [foldl_make_fresh names [] (fun n _ => rfl) hnd]
  cases names with
  | nil => exact absurd rfl hne
  | cons hd tl => simp

/-- C6 witness: a concrete two-name directory listing seeds exactly those
two entries, in order. -/
theorem create_agent_store_spec_witness :
    DataRouter._create_agent_store (some ["a", "b"]) =
      [("a", Agent.make "a"), ("b", Agent.make "b")] :=
  create_agent_store_spec.2.2 ["a", "b"] (by decide) (by decide)

/-! ### Evaluation lemmas for `start_train_process` -/

theorem start_train_busy (r : DataRouter) (data agent : String) (a : Agent)
    (hne : agent ≠ "") (hfind : dictFind r.agent_store agent = some a)
    (hst : a.status = 1) :
    DataRouter.start_train_process r data (some agent) =
      ({ r with tempFiles := r.tempFiles ++ [data] }, .error .alreadyTraining) := by
  simp [DataRouter.start_train_process, hne, hfind, hst]

theorem start_train_accept (r : DataRouter) (data agent : String) (a : Agent)
    (hne : agent ≠ "") (hfind : dictFind r.agent_store agent = some a)
    (hst : a.status ≠ 1) :
    DataRouter.start_train_process r data (some agent) =
      ({ r with agent_store := storeSetStatus r.agent_store agent 1,
                train_procs := r.train_procs ++ [⟨r.nextPid, agent, true⟩],
                tempFiles := r.tempFiles ++ [data],
                nextPid := r.nextPid + 1 },
       .ok ⟨r.nextPid, agent, true⟩) := by
  simp [DataRouter.start_train_process, hne, hfind, hst]

theorem storeSetStatus_find (d : List (String × Agent)) (k : String) (s : Nat) (a : Agent)
    (h : dictFind d k = some a) :
    dictFind (storeSetStatus d k s) k = some { a with status := s } := by
  induction d with
  | nil => simp [dictFind] at h
  | cons hd tl ih =>
      obtain ⟨k₁, v₁⟩ := hd
      by_cases h₁ : k₁ = k
      · subst h₁
        simp [dictFind] at h
        simp [storeSetStatus, dictFind, h]
      · simp [dictFind, h₁] at h
        simp [storeSetStatus, dictFind, h₁, ih h]

/-! ### Claim C1: the single-training-in-flight guard -/

/-- C1 counterexample: for a name (`"x"`) that is not a key of the agent
registry, two successive `start_train_process` requests are both accepted —
the second is not rejected with `AlreadyTrainingError` even though the
first job is still alive — leaving two in-flight training processes for the
same name. -/
theorem train_unregistered_double_acceptance :
    (DataRouter.start_train_process ⟨[("default", Agent.empty)], [], [], none, 0⟩
        "d" (some "x")).2 = .ok ⟨0, "x", true⟩ ∧
    (DataRouter.start_train_process
        (DataRouter.start_train_process ⟨[("default", Agent.empty)], [], [], none, 0⟩
          "d" (some "x")).1 "d" (some "x")).2 = .ok ⟨1, "x", true⟩ ∧
    (DataRouter.start_train_process
        (DataRouter.start_train_process ⟨[("default", Agent.empty)], [], [], none, 0⟩
          "d" (some "x")).1 "d" (some "x")).1.train_procs =
      [⟨0, "x", true⟩, ⟨1, "x", true⟩] :=
  ⟨rfl, rfl, rfl⟩

/-- C1 (amended). For every model name that is a key of the agent registry,
while its training-status flag is set every further `start_train_process`
request targeting it fails with `AlreadyTrainingError`; and an accepted
request for such a name sets the flag, so at most one training job is in
flight per registered name.  (A name absent from the registry is not
guarded: the code checks the flag only under `if agent in self.agent_store`
and never adds the new name to the store, so requests for it are always
accepted.) -/
theorem train_flag_guards_registered :
    (∀ (r : DataRouter) (data agent : String) (a : Agent), agent ≠ "" →
        dictFind r.agent_store agent = some a → a.status = 1 →
        (DataRouter.start_train_process r data (some agent)).2 =
          .error .alreadyTraining) ∧
    (∀ (r : DataRouter) (data agent : String) (a : Agent), agent ≠ "" →
        dictFind r.agent_store agent = some a → a.status ≠ 1 →
        dictFind (DataRouter.start_train_process r data (some agent)).1.agent_store
            agent = some { a with status := 1 }) := by
  constructor
  · intro r data agent a hne hfind hst
    rw [start_train_busy r data agent a hne hfind hst]
  · intro r data agent a hne hfind hst
    rw [start_train_accept r data agent a hne hfind hst]
    exact storeSetStatus_find _ _ _ _ hfind

/-- C1 witness: on a concrete registry holding `"x"`, an accepted request
sets the flag and a request against the set flag is rejected. -/
theorem train_flag_guards_registered_witness :
    (DataRouter.start_train_process ⟨[("x", ⟨"x", 1⟩)], [], [], none, 0⟩
        "d" (some "x")).2 = .error .alreadyTraining ∧
    dictFind (DataRouter.start_train_process ⟨[("x", Agent.make "x")], [], [], none, 0⟩
        "d" (some "x")).1.agent_store "x" = some ⟨"x", 1⟩ :=
  ⟨train_flag_guards_registered.1 ⟨[("x", ⟨"x", 1⟩)], [], [], none, 0⟩ "d" "x" ⟨"x", 1⟩
      (by decide) rfl rfl,
   train_flag_guards_registered.2 ⟨[("x", Agent.make "x")], [], [], none, 0⟩ "d" "x"
      (Agent.make "x") (by decide) rfl (by decide)⟩

/-! ### Claim C2: linearizability of training acceptance -/

/-- C2 counterexample: the check of the status flag (line 185) and the write
of the flag (line 188) are two separate atomic operations, so there is an
interleaving of two concurrent training requests for the same registered
idle name — both read the flag as idle before either writes it — in which
both requests are accepted. -/
theorem race_double_acceptance :
    runSchedule ⟨0, .ready, .ready⟩ [false, true, false, true] =
      ⟨1, .accepted, .accepted⟩ :=
  rfl

theorem runTrainsSeq_busy (data agent : String) (a : Agent) (n : Nat) :
    ∀ r : DataRouter, agent ≠ "" → dictFind r.agent_store agent = some a →
      a.status = 1 →
      (DataRouter.runTrainsSeq r data agent n).2 =
        List.replicate n (.error .alreadyTraining) := by
  induction n with
  | zero => intro r _ _ _; rfl
  | succ n ih =>
      intro r hne hfind hst
      have hb := start_train_busy r data agent a hne hfind hst
      simp only [DataRouter.runTrainsSeq, hb, List.replicate_succ, List.cons.injEq]
      exact ⟨trivial, ih _ hne hfind hst⟩

/-- C2 (amended). When `n + 1` training requests for the same registered
idle name execute without interleaving (each call completes before the next
starts — the linearized behavior), exactly the first is accepted with a job
handle and the remaining `n` fail with `AlreadyTrainingError`.  The claim's
no-interleaving-admits-two-acceptances part is false: the flag check and
flag write are not one atomic step (see the counterexample). -/
theorem train_seq_linearized (r : DataRouter) (data agent : String) (a : Agent) (n : Nat)
    (hne : agent ≠ "") (hfind : dictFind r.agent_store agent = some a)
    (hst : a.status ≠ 1) :
    (DataRouter.runTrainsSeq r data agent (n + 1)).2 =
      .ok ⟨r.nextPid, agent, true⟩ :: List.replicate n (.error .alreadyTraining) := by
  have ha := start_train_accept r data agent a hne hfind hst
  simp only [DataRouter.runTrainsSeq, ha, List.cons.injEq]
  refine ⟨trivial, ?_⟩
  exact runTrainsSeq_busy data agent { a with status := 1 } n _ hne
    (storeSetStatus_find _ _ _ _ hfind) rfl

/-- C2 witness: three sequential requests for a concrete registered idle
name — one acceptance, two rejections. -/
theorem train_seq_linearized_witness :
    (DataRouter.runTrainsSeq ⟨[("x", Agent.make "x")], [], [], none, 0⟩ "d" "x" 3).2 =
      .ok ⟨0, "x", true⟩ :: List.replicate 2 (.error .alreadyTraining) :=
  train_seq_linearized ⟨[("x", Agent.make "x")], [], [], none, 0⟩ "d" "x"
    (Agent.make "x") 2 (by decide) rfl (by decide)

/-! ### Claim C3: no return to idle after job termination -/

/-- C3. The code contradicts the claim: after an accepted training job for
the registered name `"x"` has terminated and been reaped by the
`train_procs` status poll (`_remove_finished_procs`) — the poll returns an
empty process list — a subsequent `start_train_process` request for `"x"`
still fails with `AlreadyTrainingError`, because nothing ever resets the
agent's status flag to idle: the name is permanently locked out. -/
theorem train_lockout_after_completion :
    (DataRouter.train_procsProp
        (DataRouter.terminateProc
          (DataRouter.start_train_process ⟨[("x", Agent.make "x")], [], [], none, 0⟩
            "d" (some "x")).1 0)).2 = [] ∧
    (DataRouter.start_train_process
        (DataRouter.train_procsProp
          (DataRouter.terminateProc
            (DataRouter.start_train_process ⟨[("x", Agent.make "x")], [], [], none, 0⟩
              "d" (some "x")).1 0)).1 "d" (some "x")).2 =
      .error .alreadyTraining :=
  ⟨rfl, rfl⟩

/-! ### Claim C4: order of persistence and checks -/

/-- C4 counterexample: a `start_train_process` call that fails (here with
`InvalidModelError`, the training request carrying no target name) has
nevertheless already persisted the supplied training payload to the
transient location — the payload file is written before any check runs. -/
theorem train_payload_written_before_checks :
    (DataRouter.start_train_process ⟨[("default", Agent.empty)], [], [], none, 0⟩
        "payload" none).2 = .error (.invalidModel "No agent found with name None") ∧
    (DataRouter.start_train_process ⟨[("default", Agent.empty)], [], [], none, 0⟩
        "payload" none).1.tempFiles = ["payload"] :=
  ⟨rfl, rfl⟩

/-- C4 (amended). `start_train_process` persists the supplied training data
to the transient location first and checks afterwards: whenever the call
fails (with `InvalidModelError` or `AlreadyTrainingError`), no training
process has been launched and the registry is unchanged, but the
training-payload file has been written. -/
theorem train_failure_no_process_but_file_written
    (r : DataRouter) (data : String) (cfgName : Option String) (err : RouterError)
    (h : (DataRouter.start_train_process r data cfgName).2 = .error err) :
    (DataRouter.start_train_process r data cfgName).1 =
      { r with tempFiles := r.tempFiles ++ [data] } := by
  cases cfgName with
  | none =>
      cases hb : r.baseName with
      | none => simp [DataRouter.start_train_process, hb]
      | some s =>
          by_cases hs : s = ""
          · simp [DataRouter.start_train_process, hb, hs]
          · cases hf : dictFind r.agent_store s with
            | none => simp [DataRouter.start_train_process, hb, hs, hf] at h
            | some a =>
                by_cases hst : a.status = 1
                · simp [DataRouter.start_train_process, hb, hs, hf, hst]
                · simp [DataRouter.start_train_process, hb, hs, hf, hst] at h
  | some s =>
      by_cases hs : s = ""
      · simp [DataRouter.start_train_process, hs]
      · cases hf : dictFind r.agent_store s with
        | none => simp [DataRouter.start_train_process, hs, hf] at h
        | some a =>
            by_cases hst : a.status = 1
            · simp [DataRouter.start_train_process, hs, hf, hst]
            · simp [DataRouter.start_train_process, hs, hf, hst] at h

/-- C4 amended-claim witness: the concrete failing call of the
counterexample leaves exactly the payload file behind. -/
theorem train_failure_no_process_but_file_written_witness :
    (DataRouter.start_train_process ⟨[("default", Agent.empty)], [], [], none, 0⟩
        "p" none).1 =
      ⟨[("default", Agent.empty)], [], ["p"], none, 0⟩ :=
  train_failure_no_process_but_file_written ⟨[("default", Agent.empty)], [], [], none, 0⟩
    "p" none (.invalidModel "No agent found with name None") rfl

/-! ### Claim C8: the Watson response emulator -/

/-- C8. `normalise_response_json` maps, in order, each `intent_ranking`
element to an `intents` entry carrying its name as `intent` and its
confidence; maps, in order, each internal entity to an `entities` entry
preserving `entity`, `value` and `confidence` and giving it the location
`[start, end - 1]` (the inclusive end derived from the internal half-open
end offset; each side `None` when the corresponding offset is absent);
copies the input's `text` into `input.text`; and is deterministic — equal
inputs yield identical outputs. -/
theorem watson_response_shape (d : WatsonEmulator.InternalResult) :
    (WatsonEmulator.normalise_response_json d).input_text = d.text ∧
    (WatsonEmulator.normalise_response_json d).intents.length =
      d.intent_ranking.length ∧
    (∀ (i : Nat) (el : WatsonEmulator.IntentRank), d.intent_ranking[i]? = some el →
      (WatsonEmulator.normalise_response_json d).intents[i]? =
        some ⟨el.name, el.confidence⟩) ∧
    (WatsonEmulator.normalise_response_json d).entities.length = d.entities.length ∧
    (∀ (i : Nat) (e : WatsonEmulator.EntityIn), d.entities[i]? = some e →
      ∃ o : WatsonEmulator.WatsonEntityOut,
        (WatsonEmulator.normalise_response_json d).entities[i]? = some o ∧
        o.entity = e.entity ∧ o.value = e.value ∧ o.confidence = e.confidence ∧
        (∀ n : Int, e.endPos = some n → o.location = [e.start, some (n - 1)]) ∧
        (e.endPos = none → o.location = [e.start, none])) ∧
    (∀ d₂ : WatsonEmulator.InternalResult, d = d₂ →
      WatsonEmulator.normalise_response_json d =
        WatsonEmulator.normalise_response_json d₂) := by
  refine ⟨rfl, by simp [WatsonEmulator.normalise_response_json], ?_,
    by simp [WatsonEmulator.normalise_response_json], ?_, fun d₂ h => h ▸ rfl⟩
  · intro i el hel
    simp [WatsonEmulator.normalise_response_json, List.getElem?_map, hel]
  · intro i e he
    refine ⟨⟨e.entity,
        [e.start, match e.endPos with | some n => some (n - 1) | none => none],
        e.value, e.confidence⟩, ?_, rfl, rfl, rfl, ?_, ?_⟩
    · simp [WatsonEmulator.normalise_response_json, List.getElem?_map, he]
    · intro n hn
      rw [hn]
    · intro hn
      rw [hn]

/-- C8 witness: the spec's fixed internal result — one ranking element
(`greet`, 0.9) and one entity (`city` = `paris`, offsets 10 to 15) over the
text `hi` — produces the Watson shape with the end offset adjusted to 14. -/
theorem watson_response_shape_witness :
    (WatsonEmulator.normalise_response_json
        ⟨[⟨"greet", 9 / 10⟩], [⟨"city", "paris", some 10, some 15, none⟩],
         "hi"⟩).intents[0]? = some ⟨"greet", 9 / 10⟩ ∧
    ∃ o : WatsonEmulator.WatsonEntityOut,
      (WatsonEmulator.normalise_response_json
          ⟨[⟨"greet", 9 / 10⟩], [⟨"city", "paris", some 10, some 15, none⟩],
           "hi"⟩).entities[0]? = some o ∧
      o.entity = "city" ∧ o.value = "paris" ∧ o.location = [some 10, some 14] := by
  constructor
  · exact (watson_response_shape
      ⟨[⟨"greet", 9 / 10⟩], [⟨"city", "paris", some 10, some 15, none⟩],
       "hi"⟩).2.2.1 0 ⟨"greet", 9 / 10⟩ rfl
  · obtain ⟨o, ho, hent, hval, _, hend, _⟩ := (watson_response_shape
      ⟨[⟨"greet", 9 / 10⟩], [⟨"city", "paris", some 10, some 15, none⟩],
       "hi"⟩).2.2.2.2.1 0 ⟨"city", "paris", some 10, some 15, none⟩ rfl
    refine ⟨o, ho, hent, hval, ?_⟩
    rw [hend 15 rfl]
    decide

/-! ### Claim C9: the Watson training-data reader -/

theorem extract_intents_eq (js : WatsonReader.WatsonJs) :
    WatsonReader._extract_intents js =
      (WatsonReader.intentPairs js).map
        (fun p => (⟨p.2, p.1⟩ : WatsonReader.Message)) := by
  have haux : ∀ (l : List WatsonReader.IntentJs) (acc : List WatsonReader.Message),
      l.foldl (fun acc i =>
          acc ++ i.examples.map (fun ex => (⟨ex.text, i.intent⟩ : WatsonReader.Message)))
        acc =
      acc ++ l.flatMap (fun i =>
          i.examples.map (fun ex => (⟨ex.text, i.intent⟩ : WatsonReader.Message))) := by
    intro l
    induction l with
    | nil => intro acc; simp
    | cons hd tl ih =>
        intro acc
        simp [List.flatMap_cons, ih]
  simp only [WatsonReader._extract_intents, haux, List.nil_append,
    WatsonReader.intentPairs, List.map_flatMap, List.map_map]
  rfl

theorem valfold (en : String) (vs : List WatsonReader.ValueJs)
    (acc : List (String × String) × List WatsonReader.RegexFeature) :
    vs.foldl (WatsonReader.procValue en) acc =
      ((vs.flatMap (fun v =>
          if v.vtype = "synonyms" then
            (v.value, en) :: v.synonyms.map (fun s => (s, en))
          else [])).foldl (fun d p => dictInsert d p.1 p.2) acc.1,
       acc.2 ++ vs.flatMap (fun v =>
          if v.vtype = "patterns" then
            v.patterns.map (fun p => (⟨en ++ "_" ++ v.value, p⟩ :
              WatsonReader.RegexFeature))
          else [])) := by
  induction vs generalizing acc with
  | nil => simp
  | cons v tl ih =>
      rw [List.foldl_cons, ih]
      by_cases hsyn : v.vtype = "synonyms"
      · have hpat : ¬ v.vtype = "patterns" := by rw [hsyn]; decide
        simp [WatsonReader.procValue, hsyn, hpat, List.flatMap_cons,
          List.foldl_append, List.foldl_cons, List.foldl_map]
      · by_cases hpat : v.vtype = "patterns"
        · simp [WatsonReader.procValue, hsyn, hpat, List.flatMap_cons,
            List.append_assoc]
        · simp [WatsonReader.procValue, hsyn, hpat, List.flatMap_cons]

theorem extract_entities_eq (js : WatsonReader.WatsonJs) :
    WatsonReader._extract_entities js =
      ((WatsonReader.synonymEvents js).foldl (fun d p => dictInsert d p.1 p.2) [],
       WatsonReader.regexOf js) := by
  have haux : ∀ (es : List WatsonReader.EntityJs)
      (acc : List (String × String) × List WatsonReader.RegexFeature),
      es.foldl (fun acc e => e.values.foldl (WatsonReader.procValue e.entity) acc) acc =
        ((es.flatMap (fun e => e.values.flatMap (fun v =>
            if v.vtype = "synonyms" then
              (v.value, e.entity) :: v.synonyms.map (fun s => (s, e.entity))
            else []))).foldl (fun d p => dictInsert d p.1 p.2) acc.1,
         acc.2 ++ es.flatMap (fun e => e.values.flatMap (fun v =>
            if v.vtype = "patterns" then
              v.patterns.map (fun p => (⟨e.entity ++ "_" ++ v.value, p⟩ :
                WatsonReader.RegexFeature))
            else []))) := by
    intro es
    induction es with
    | nil => intro acc; simp
    | cons e tl ih =>
        intro acc
        rw [List.foldl_cons, valfold e.entity e.values acc, ih]
        simp [List.flatMap_cons, List.foldl_append, List.append_assoc]
  simpa [WatsonReader._extract_entities, WatsonReader.synonymEvents,
    WatsonReader.regexOf] using haux js.entities ([], [])

theorem dictFind_foldl_untouched (evs : List (String × String)) :
    ∀ (d : List (String × String)) (k : String), k ∉ evs.map Prod.fst →
      dictFind (evs.foldl (fun d p => dictInsert d p.1 p.2) d) k = dictFind d k := by
  induction evs with
  | nil => intro d k _; rfl
  | cons hd tl ih =>
      intro d k hk
      obtain ⟨k₁, v₁⟩ := hd
      rw [List.map_cons, List.mem_cons] at hk
      push_neg at hk
      rw [List.foldl_cons, ih _ k hk.2]
      exact dictFind_insert_ne d k k₁ v₁ hk.1

theorem dictFind_foldl_events (evs : List (String × String)) :
    ∀ (d : List (String × String)) (k v : String), (k, v) ∈ evs →
      (evs.map Prod.fst).Nodup →
      dictFind (evs.foldl (fun d p => dictInsert d p.1 p.2) d) k = some v := by
  induction evs with
  | nil => intro d k v hm _; simp at hm
  | cons hd tl ih =>
      intro d k v hm hnd
      obtain ⟨k₁, v₁⟩ := hd
      simp only [List.map_cons, List.nodup_cons] at hnd
      obtain ⟨hk₁, hndtl⟩ := hnd
      rcases List.mem_cons.mp hm with heq | hmem
      · simp only [Prod.mk.injEq] at heq
        obtain ⟨rfl, rfl⟩ := heq
        rw [List.foldl_cons, dictFind_foldl_untouched tl _ k hk₁]
        exact dictFind_insert_self d k v
      · rw [List.foldl_cons]
        exact ih _ k v hmem hndtl

/-- C9. `read_from_json` produces: the labeled examples — one `Message`
carrying the intent's name per (intent, example text) occurrence, in corpus
order, hence exactly one labeled example per (intent, example text) pair
when the corpus lists each pair once; an entity-synonym dictionary that
(when no synonym key is claimed by two entries) sends each
`synonyms`-typed value and each of its listed synonyms to its entity's
name; and one regex feature per pattern of each `patterns`-typed value,
named entity name, underscore, value text. -/
theorem watson_reader_spec (js : WatsonReader.WatsonJs) :
    ((WatsonReader.read_from_json js).training_examples =
        (WatsonReader.intentPairs js).map
          (fun p => (⟨p.2, p.1⟩ : WatsonReader.Message))) ∧
    ((WatsonReader.intentPairs js).Nodup → ∀ p ∈ WatsonReader.intentPairs js,
        List.count (⟨p.2, p.1⟩ : WatsonReader.Message)
          (WatsonReader.read_from_json js).training_examples = 1) ∧
    ((WatsonReader.read_from_json js).regex_features = WatsonReader.regexOf js) ∧
    (((WatsonReader.synonymEvents js).map Prod.fst).Nodup →
      ∀ e ∈ js.entities, ∀ v ∈ e.values, v.vtype = "synonyms" →
        dictFind (WatsonReader.read_from_json js).entity_synonyms v.value =
          some e.entity ∧
        ∀ s ∈ v.synonyms,
          dictFind (WatsonReader.read_from_json js).entity_synonyms s =
            some e.entity) := by
  have hint := extract_intents_eq js
  have hent := extract_entities_eq js
  have hexamples : (WatsonReader.read_from_json js).training_examples =
      (WatsonReader.intentPairs js).map
        (fun p => (⟨p.2, p.1⟩ : WatsonReader.Message)) := by
    simpa [WatsonReader.read_from_json] using hint
  have hinj : Function.Injective
      (fun p : String × String => (⟨p.2, p.1⟩ : WatsonReader.Message)) := by
    intro a b h
    simp only [WatsonReader.Message.mk.injEq] at h
    exact Prod.ext h.2 h.1
  refine ⟨hexamples, ?_, ?_, ?_⟩
  · intro hnd p hp
    rw [hexamples, List.count_map_of_injective _ _ hinj p]
    exact List.count_eq_one_of_mem hnd hp
  · simpa [WatsonReader.read_from_json] using congrArg Prod.snd hent
  · intro hnd e he v hv hsyn
    have hsynmap : (WatsonReader.read_from_json js).entity_synonyms =
        (WatsonReader.synonymEvents js).foldl (fun d p => dictInsert d p.1 p.2) [] := by
      simpa [WatsonReader.read_from_json] using congrArg Prod.fst hent
    constructor
    · rw [hsynmap]
      refine dictFind_foldl_events _ _ _ _ ?_ hnd
      simp only [WatsonReader.synonymEvents, List.mem_flatMap]
      exact ⟨e, he, ⟨v, hv, by simp [hsyn]⟩⟩
    · intro s hs
      rw [hsynmap]
      refine dictFind_foldl_events _ _ _ _ ?_ hnd
      simp only [WatsonReader.synonymEvents, List.mem_flatMap]
      refine ⟨e, he, ⟨v, hv, ?_⟩⟩
      simp only [hsyn, if_pos]
      exact List.mem_cons_of_mem _ (List.mem_map_of_mem _ hs)

/-- C9 witness: a concrete corpus with one intent (`greet`, example `hi`)
and one entity (`city`) holding a `synonyms`-typed value (`paris`, synonym
`lutetia`) and a `patterns`-typed value (`zip`, one pattern): exactly one
labeled example, both synonym keys mapped to `city`, and the regex feature
named `city_zip`. -/
theorem watson_reader_spec_witness :
    List.count (⟨"hi", "greet"⟩ : WatsonReader.Message)
      (WatsonReader.read_from_json
        ⟨[⟨"greet", [⟨"hi"⟩]⟩],
         [⟨"city", [⟨"paris", "synonyms", ["lutetia"], []⟩,
                    ⟨"zip", "patterns", [], ["[0-9]+"]⟩]⟩]⟩).training_examples = 1 ∧
    (WatsonReader.read_from_json
        ⟨[⟨"greet", [⟨"hi"⟩]⟩],
         [⟨"city", [⟨"paris", "synonyms", ["lutetia"], []⟩,
                    ⟨"zip", "patterns", [], ["[0-9]+"]⟩]⟩]⟩).regex_features =
      [⟨"city_zip", "[0-9]+"⟩] ∧
    dictFind (WatsonReader.read_from_json
        ⟨[⟨"greet", [⟨"hi"⟩]⟩],
         [⟨"city", [⟨"paris", "synonyms", ["lutetia"], []⟩,
                    ⟨"zip", "patterns", [], ["[0-9]+"]⟩]⟩]⟩).entity_synonyms
      "paris" = some "city" ∧
    dictFind (WatsonReader.read_from_json
        ⟨[⟨"greet", [⟨"hi"⟩]⟩],
         [⟨"city", [⟨"paris", "synonyms", ["lutetia"], []⟩,
                    ⟨"zip", "patterns", [], ["[0-9]+"]⟩]⟩]⟩).entity_synonyms
      "lutetia" = some "city" := by
  refine ⟨?_, ?_, ?_, ?_⟩
  · exact (watson_reader_spec
      ⟨[⟨"greet", [⟨"hi"⟩]⟩],
       [⟨"city", [⟨"paris", "synonyms", ["lutetia"], []⟩,
                  ⟨"zip", "patterns", [], ["[0-9]+"]⟩]⟩]⟩).2.1 (by decide)
      ("greet", "hi") (by decide)
  · exact (watson_reader_spec
      ⟨[⟨"greet", [⟨"hi"⟩]⟩],
       [⟨"city", [⟨"paris", "synonyms", ["lutetia"], []⟩,
                  ⟨"zip", "patterns", [], ["[0-9]+"]⟩]⟩]⟩).2.2.1
  · exact ((watson_reader_spec
      ⟨[⟨"greet", [⟨"hi"⟩]⟩],
       [⟨"city", [⟨"paris", "synonyms", ["lutetia"], []⟩,
                  ⟨"zip", "patterns", [], ["[0-9]+"]⟩]⟩]⟩).2.2.2 (by decide)
      ⟨"city", [⟨"paris", "synonyms", ["lutetia"], []⟩,
                ⟨"zip", "patterns", [], ["[0-9]+"]⟩]⟩ (by decide)
      ⟨"paris", "synonyms", ["lutetia"], []⟩ (by decide) rfl).1
  · exact ((watson_reader_spec
      ⟨[⟨"greet", [⟨"hi"⟩]⟩],
       [⟨"city", [⟨"paris", "synonyms", ["lutetia"], []⟩,
                  ⟨"zip", "patterns", [], ["[0-9]+"]⟩]⟩]⟩).2.2.2 (by decide)
      ⟨"city", [⟨"paris", "synonyms", ["lutetia"], []⟩,
                ⟨"zip", "patterns", [], ["[0-9]+"]⟩]⟩ (by decide)
      ⟨"paris", "synonyms", ["lutetia"], []⟩ (by decide) rfl).2 "lutetia" (by decide)

end Rasa
